import Mathlib

/-!
Shallow embedding of the `nestjs-encryption` encryption envelope codec
(`src/lib/encryption.service.ts`, `src/lib/encryption.ciphers.ts`,
`src/lib/encryption.errors.ts`) and proofs about it.

Modelling conventions:

* A JavaScript string is modelled as `List Char` (`JStr`); a Node `Buffer`
  is modelled as `List Nat` (`Bytes`), each entry one byte value.
* `buf.toString("base64")` and `Buffer.from(s, "base64")` are modelled by
  the executable `b64encode` / `b64decode` below.  `b64decode` is total and
  permissive, like Node's decoder; the codec only ever uses the decoded
  value of a string that passes the canonical round-trip check
  `b64encode (b64decode s) = s`, and on such strings every standard
  decoder (Node's included) agrees, because the set of strings passing the
  check is exactly the range of the canonical encoder.
* The external `node:crypto` primitives (`createCipheriv`/`createDecipheriv`
  pipelines, HMAC-SHA256, `randomBytes`) and `JSON.parse` are not code of
  this repository; they are gathered in the `Crypto` parameter structure,
  and theorems assume only their documented boundary behaviour (`CryptoOK`).
  The executable `toyCrypto` instantiation below discharges those
  assumptions for concrete witness computations.
* Fallible TypeScript code (methods that `throw`) is modelled with
  `Except String` carrying the thrown `Error` message; the public error
  classes of `encryption.errors.ts` become the `EncError` type.
-/

namespace NestEnc

set_option maxRecDepth 16000

/-- A Node `Buffer`: a sequence of byte values. -/
abbrev Bytes := List Nat

/-- A JavaScript string, as its sequence of characters. -/
abbrev JStr := List Char

/-- The list of supported ciphers (`Cipher` enum in `encryption.ciphers.ts`). -/
inductive Cipher where
  | aes_128_cbc
  | aes_256_cbc
  | aes_128_gcm
  | aes_256_gcm
deriving DecidableEq

/-- Structural parameters of a cipher (`encryption.ciphers.ts`). -/
structure CipherProfile where
  ivLength : Nat
  keyLength : Nat
  blockLength : Nat
deriving DecidableEq

/-- The map of the supported ciphers to their characteristics
(`ciphers` record in `encryption.ciphers.ts`). -/
def ciphers : Cipher → CipherProfile
  | .aes_128_cbc => { keyLength := 16, ivLength := 16, blockLength := 16 }
  | .aes_256_cbc => { keyLength := 32, ivLength := 16, blockLength := 16 }
  | .aes_128_gcm => { keyLength := 16, ivLength := 12, blockLength := 16 }
  | .aes_256_gcm => { keyLength := 32, ivLength := 12, blockLength := 16 }

/-- The standard base64 alphabet. -/
def b64chars : List Char :=
  "ABCDEFGHIJKLMNOPQRSTUVWXYZabcdefghijklmnopqrstuvwxyz0123456789+/".toList

/-- Character for a 6-bit group (out-of-range values are never produced by
encoding genuine bytes; they default to 'A'). -/
def b64char (n : Nat) : Char := b64chars.getD n 'A'

/-- Model of `buf.toString("base64")`: standard base64 with padding. -/
def b64encode : Bytes → JStr
  | [] => []
  | [a] => [b64char (a / 4), b64char (a % 4 * 16), '=', '=']
  | [a, b] => [b64char (a / 4), b64char (a % 4 * 16 + b / 16), b64char (b % 16 * 4), '=']
  | a :: b :: c :: rest =>
      b64char (a / 4) :: b64char (a % 4 * 16 + b / 16) ::
      b64char (b % 16 * 4 + c / 64) :: b64char (c % 64) :: b64encode rest

/-- Six-bit value of a base64 character (64 for characters outside the
alphabet, which can only arise on strings that fail the canonical check). -/
def b64val (c : Char) : Nat := b64chars.indexOf c

/-- Reassemble bytes from a list of 6-bit groups; a trailing group of one
6-bit value contributes no byte, matching Node's decoder. -/
def decode6 : List Nat → Bytes
  | w :: x :: y :: z :: rest =>
      (w * 4 + x / 16) :: (x % 16 * 16 + y / 4) :: (y % 4 * 64 + z) :: decode6 rest
  | [w, x] => [w * 4 + x / 16]
  | [w, x, y] => [w * 4 + x / 16, x % 16 * 16 + y / 4]
  | _ => []

/-- Model of `Buffer.from(s, "base64")`: drop padding characters, map the
remaining characters to 6-bit groups and reassemble bytes. -/
def b64decode (s : JStr) : Bytes :=
  decode6 ((s.filter (· != '=')).map b64val)

/-- Model of `Buffer.from(text)` (UTF-8 encoding) for the JSON texts the
codec serialises: those texts are pure ASCII (base64 alphabet plus JSON
punctuation), and on ASCII text UTF-8 bytes coincide with character codes. -/
def strBytes (s : JStr) : Bytes := s.map Char.toNat

/-- A value of a parsed JSON object field: a string, or any non-string JSON
value (`jother` — number, boolean, null, array, nested object), which the
decode helpers reject when `Buffer.from` receives it. -/
inductive JVal where
  | jstr : JStr → JVal
  | jother : JVal
deriving DecidableEq

/-- A parsed JSON object, as an association list from field name to value.
`JSON.parse` returns objects with unique keys (later duplicates win during
parsing), so first-match lookup is faithful. -/
abbrev Jobj := List (String × JVal)

/-- Model of `Object.hasOwn(obj, field)`. -/
def hasOwn (o : Jobj) (f : String) : Bool := (o.lookup f).isSome

/-- Model of JavaScript property access `obj[field]`; only ever used by the
codec after `hasOwn` has succeeded, so the default is unreachable there. -/
def getField (o : Jobj) (f : String) : JVal := (o.lookup f).getD .jother

/-- Model of `JSON.stringify({iv, hmac, cipherText})` with string fields in
the insertion order of `encrypt`.  The field values the codec serialises are
base64 text, which contains no character needing JSON escaping. -/
def stringifyAEAD (iv hmac cipherText : JStr) : JStr :=
  "\x7b\"iv\":\"".toList ++ iv ++ "\",\"hmac\":\"".toList ++ hmac ++
    "\",\"cipherText\":\"".toList ++ cipherText ++ "\"\x7d".toList

/-- The external primitives the service imports (`node:crypto` cipher and
HMAC pipelines, `randomBytes`, and `JSON.parse`).  They are not code of this
repository; theorems assume only their documented boundary behaviour.

* `cipherEnc cipher key iv plaintext` is the `createCipheriv` /
  `update(plaintext)` / `final()` pipeline of `encrypt`;
* `cipherDecFinal cipher key iv cipherText` is the `createDecipheriv` /
  `update` / `final` / `toString()` pipeline of `decrypt`, returning the
  thrown message (e.g. a padding error) on failure;
* `hmacSHA256 key message` is the SHA-256 HMAC digest;
* `randomBytes n` is one draw of `n` random bytes;
* `jsonParse bytes` is `JSON.parse(buffer.toString())`, `none` on a parse
  failure; parses yielding a non-object value are outside the model (no
  claim depends on them). -/
structure Crypto where
  cipherEnc : Cipher → Bytes → Bytes → JStr → Bytes
  cipherDecFinal : Cipher → Bytes → Bytes → Bytes → Except String JStr
  hmacSHA256 : Bytes → Bytes → Bytes
  randomBytes : Nat → Bytes
  jsonParse : Bytes → Option Jobj

/-- State of an incremental `node:crypto` HMAC: the key and the bytes fed so
far.  `digest` of incrementally fed data equals the digest of their
concatenation (documented streaming behaviour). -/
structure HmacCtx where
  key : Bytes
  data : Bytes

/-- Model of `createHmac(algorithm, key)`; the service only ever passes
"sha256". -/
def createHmac (_algorithm : String) (key : Bytes) : HmacCtx :=
  { key := key, data := [] }

/-- Model of `hmac.update(data)`. -/
def HmacCtx.update (h : HmacCtx) (d : Bytes) : HmacCtx :=
  { h with data := h.data ++ d }

/-- Model of `hmac.digest()`. -/
def HmacCtx.digest (c : Crypto) (h : HmacCtx) : Bytes :=
  c.hmacSHA256 h.key h.data

/-- Model of `crypto.timingSafeEqual(a, b)`: per its documentation it throws
`ERR_CRYPTO_TIMING_SAFE_EQUAL_LENGTH` ("Input buffers must have the same
byte length") when the buffers differ in length, and otherwise reports byte
equality.  The constant-time execution aspect is not representable in a
functional model. -/
def timingSafeEqual (a b : Bytes) : Except String Bool :=
  if a.length ≠ b.length then .error "Input buffers must have the same byte length"
  else .ok (a == b)

/-- Message of the `TypeError` Node's `Buffer.from` throws when handed a
non-string first argument (the per-type suffix of the real message is
collapsed; no claim depends on its exact text). -/
def bufferFromTypeError : String :=
  "The first argument must be of type string or an instance of Buffer, ArrayBuffer, or Array or an Array-like Object."

/-- The two public error classes of `encryption.errors.ts`, carrying the
underlying reason message. -/
inductive EncError where
  | unableToInitialize : String → EncError
  | unableToDecrypt : String → EncError
deriving DecidableEq

/-- Full user-facing message, mirroring the `Error` subclasses'
constructors. -/
def EncError.message : EncError → String
  | .unableToInitialize m => "Unable to initialize the encryption service: " ++ m
  | .unableToDecrypt m => "Unable to decrypt the ciphertext: " ++ m

/-- Authenticated Encryption with Associated Data payload
(`AEADPayload<TFormat>` interface). -/
structure AEADPayload (TFormat : Type) where
  iv : TFormat
  hmac : TFormat
  cipherText : TFormat
deriving DecidableEq

/-- Options consumed from the module configuration layer
(`EncryptionModuleOptions` in `encryption.module.ts`). -/
structure EncryptionModuleOptions where
  key : JStr
  cipher : Option Cipher

/-- The encryption service instance state: decoded secret key and chosen
cipher (the two `private readonly` fields). -/
structure EncryptionService where
  key : Bytes
  cipher : Cipher
deriving DecidableEq

/-- Model of `EncryptionService.decodeKey`. -/
def EncryptionService.decodeKey (cipher : Cipher) (key : JStr) : Except String Bytes :=
  let decodedKey := b64decode key
  if b64encode decodedKey ≠ key then
    .error "The key must be a valid base64-encoded string."
  else if decodedKey.length ≠ (ciphers cipher).keyLength then
    .error ("The decoded key must be " ++ toString (ciphers cipher).keyLength ++ " bytes long.")
  else
    .ok decodedKey

/-- Model of the constructor: resolve the cipher (default `aes-256-cbc`),
decode and validate the key, and wrap any failure in `UnableToInitialize`.
Construction either returns a fully built instance or an error: no partially
initialized instance exists in the model, matching the atomic `try`/`throw`
of the source. -/
def construct (options : EncryptionModuleOptions) : Except EncError EncryptionService :=
  let cipher := options.cipher.getD Cipher.aes_256_cbc
  match EncryptionService.decodeKey cipher options.key with
  | .error msg => .error (.unableToInitialize msg)
  | .ok key => .ok { key := key, cipher := cipher }

/-- Model of the static `EncryptionService.generateKey`. -/
def EncryptionService.generateKey (c : Crypto) (cipher : Cipher) : JStr :=
  b64encode (c.randomBytes (ciphers cipher).keyLength)

/-- Model of `EncryptionService.generateIV`. -/
def EncryptionService.generateIV (c : Crypto) (self : EncryptionService) : Bytes :=
  c.randomBytes (ciphers self.cipher).ivLength

/-- Model of `EncryptionService.computeHmac`: a single incremental HMAC over
the ciphertext followed by the IV. -/
def EncryptionService.computeHmac (c : Crypto) (self : EncryptionService)
    (cipherText iv : Bytes) : Bytes :=
  (((createHmac "sha256" self.key).update cipherText).update iv).digest c

/-- Model of `EncryptionService.verifyHmac`. -/
def EncryptionService.verifyHmac (c : Crypto) (self : EncryptionService)
    (cipherText iv hmac : Bytes) : Except String Unit :=
  match timingSafeEqual (self.computeHmac c cipherText iv) hmac with
  | .error msg => .error msg
  | .ok b => if !b then .error "The signature does not match the encrypted payload." else .ok ()

/-- The AEAD payload record built inside `encrypt` (its `aead` local). -/
def EncryptionService.encryptPayload (c : Crypto) (self : EncryptionService)
    (plaintext : JStr) (iv : Bytes) : AEADPayload JStr :=
  let cipherText := c.cipherEnc self.cipher self.key iv plaintext
  let hmac := self.computeHmac c cipherText iv
  { iv := b64encode iv, hmac := b64encode hmac, cipherText := b64encode cipherText }

/-- Body of `encrypt` with the freshly drawn IV made explicit, so that two
calls with distinct random draws can be compared. -/
def EncryptionService.encryptWithIV (c : Crypto) (self : EncryptionService)
    (plaintext : JStr) (iv : Bytes) : JStr :=
  let aead := self.encryptPayload c plaintext iv
  b64encode (strBytes (stringifyAEAD aead.iv aead.hmac aead.cipherText))

/-- Model of `EncryptionService.encrypt`: draw an IV and serialise the
payload. -/
def EncryptionService.encrypt (c : Crypto) (self : EncryptionService)
    (plaintext : JStr) : JStr :=
  self.encryptWithIV c plaintext (self.generateIV c)

/-- Model of `EncryptionService.decodeIV`. -/
def EncryptionService.decodeIV (self : EncryptionService) (v : JVal) : Except String Bytes :=
  match v with
  | .jother => .error bufferFromTypeError
  | .jstr encodedIV =>
    let iv := b64decode encodedIV
    if b64encode iv ≠ encodedIV then
      .error "The IV is not a valid base64-encoded string."
    else if iv.length ≠ (ciphers self.cipher).ivLength then
      .error ("The decoded IV is not the correct length. Expected " ++
        toString (ciphers self.cipher).ivLength ++ " bytes, got " ++
        toString iv.length ++ " bytes.")
    else
      .ok iv

/-- Model of `EncryptionService.decodeHmac`: base64 validity only, no length
check. -/
def EncryptionService.decodeHmac (v : JVal) : Except String Bytes :=
  match v with
  | .jother => .error bufferFromTypeError
  | .jstr encodedHmac =>
    let hmac := b64decode encodedHmac
    if b64encode hmac ≠ encodedHmac then
      .error "The HMAC is not a valid base64-encoded string."
    else
      .ok hmac

/-- Model of `EncryptionService.decodeCipherText`. -/
def EncryptionService.decodeCipherText (self : EncryptionService) (v : JVal) :
    Except String Bytes :=
  match v with
  | .jother => .error bufferFromTypeError
  | .jstr encodedCipherText =>
    let cipherText := b64decode encodedCipherText
    if b64encode cipherText ≠ encodedCipherText then
      .error "The encoded ciphertext is not a valid base64-encoded string."
    else if cipherText.length % (ciphers self.cipher).blockLength ≠ 0 then
      .error "The length of the decoded ciphertext is not a multiple of the cipher's block length."
    else
      .ok cipherText

/-- Message for a missing AEAD payload field. -/
def missingFieldMsg (field : String) : String :=
  "The AEAD payload is missing the " ++ field ++ " field."

/-- Model of `EncryptionService.decodeAEADPayload`: outer base64 check, JSON
parse, field-presence loop in order iv, cipherText, hmac, then field decodes
in the evaluation order of the returned object literal: iv, hmac,
cipherText. -/
def EncryptionService.decodeAEADPayload (c : Crypto) (self : EncryptionService)
    (encodedPayload : JStr) : Except String (AEADPayload Bytes) :=
  let payload := b64decode encodedPayload
  if b64encode payload ≠ encodedPayload then
    .error "The encoded AEAD payload is not a valid base64-encoded string."
  else
    match c.jsonParse payload with
    | none => .error "The decoded AEAD payload is not a valid JSON string."
    | some pkg =>
      if !hasOwn pkg "iv" then .error (missingFieldMsg "iv")
      else if !hasOwn pkg "cipherText" then .error (missingFieldMsg "cipherText")
      else if !hasOwn pkg "hmac" then .error (missingFieldMsg "hmac")
      else
        match self.decodeIV (getField pkg "iv") with
        | .error e => .error e
        | .ok iv =>
          match EncryptionService.decodeHmac (getField pkg "hmac") with
          | .error e => .error e
          | .ok hmac =>
            match self.decodeCipherText (getField pkg "cipherText") with
            | .error e => .error e
            | .ok cipherText => .ok { iv := iv, hmac := hmac, cipherText := cipherText }

/-- The `try` block of `decrypt`. -/
def EncryptionService.decryptInner (c : Crypto) (self : EncryptionService)
    (encrypted : JStr) : Except String JStr :=
  match self.decodeAEADPayload c encrypted with
  | .error e => .error e
  | .ok payload =>
    match self.verifyHmac c payload.cipherText payload.iv payload.hmac with
    | .error e => .error e
    | .ok _ => c.cipherDecFinal self.cipher self.key payload.iv payload.cipherText

/-- Model of `EncryptionService.decrypt`: every failure inside the pipeline
is wrapped into `UnableToDecrypt` with the underlying message. -/
def EncryptionService.decrypt (c : Crypto) (self : EncryptionService)
    (encrypted : JStr) : Except EncError JStr :=
  match self.decryptInner c encrypted with
  | .error msg => .error (.unableToDecrypt msg)
  | .ok plain => .ok plain

/-- UTF-8 byte length of a JavaScript string (sum of the per-character
encoding sizes), the length of `cipher.update(plaintext)` input bytes. -/
def utf8Len : JStr → Nat
  | [] => 0
  | ch :: rest => ch.utf8Size + utf8Len rest

/-- Documented boundary behaviour of the external primitives, assumed by the
theorems that run the full pipeline, stated per cipher mode exactly as
node:crypto documents it.  For the CBC identifiers the cipher pipeline
emits block-aligned (PKCS#7-padded) byte output and the decipher pipeline
inverts it.  For the GCM-named identifiers the behaviour is the opposite:
the ciphertext is an unpadded stream, one byte per UTF-8 plaintext byte
(`gcm_stream`), and the decipher's `final()` always throws "Unsupported
state or unable to authenticate data" because the service never calls
`setAuthTag` (`gcm_final`).  HMAC-SHA256 yields 32 bytes, `randomBytes n`
yields `n` bytes, and `JSON.parse` inverts `JSON.stringify` on the
escaping-free object texts the codec produces. -/
structure CryptoOK (c : Crypto) : Prop where
  enc_block : ∀ cip key iv pt,
    cip = Cipher.aes_128_cbc ∨ cip = Cipher.aes_256_cbc →
    (c.cipherEnc cip key iv pt).length % (ciphers cip).blockLength = 0
  enc_bytes : ∀ cip key iv pt, ∀ x ∈ c.cipherEnc cip key iv pt, x < 256
  dec_enc : ∀ cip key iv pt,
    cip = Cipher.aes_128_cbc ∨ cip = Cipher.aes_256_cbc →
    c.cipherDecFinal cip key iv (c.cipherEnc cip key iv pt) = .ok pt
  gcm_stream : ∀ cip key iv pt,
    cip = Cipher.aes_128_gcm ∨ cip = Cipher.aes_256_gcm →
    (c.cipherEnc cip key iv pt).length = utf8Len pt
  gcm_final : ∀ cip key iv ct,
    cip = Cipher.aes_128_gcm ∨ cip = Cipher.aes_256_gcm →
    c.cipherDecFinal cip key iv ct =
      .error "Unsupported state or unable to authenticate data"
  hmac_len : ∀ key msg, (c.hmacSHA256 key msg).length = 32
  hmac_bytes : ∀ key msg, ∀ x ∈ c.hmacSHA256 key msg, x < 256
  rnd_len : ∀ n, (c.randomBytes n).length = n
  rnd_bytes : ∀ n, ∀ x ∈ c.randomBytes n, x < 256
  parse_stringify : ∀ a b c', (∀ ch ∈ a, ch ≠ '"') → (∀ ch ∈ b, ch ≠ '"') →
    (∀ ch ∈ c', ch ≠ '"') →
    c.jsonParse (strBytes (stringifyAEAD a b c')) =
      some [("iv", .jstr a), ("hmac", .jstr b), ("cipherText", .jstr c')]

/-- Executable stand-in for the cipher pipeline, used to instantiate the
`Crypto` boundary in witnesses: each plaintext character becomes one
16-byte block (three little-endian code bytes and thirteen zeros), so the
output is block-aligned and exactly invertible. -/
def toyEnc : JStr → Bytes
  | [] => []
  | ch :: rest =>
      ch.toNat % 256 :: ch.toNat / 256 % 256 :: ch.toNat / 65536 ::
        0 :: 0 :: 0 :: 0 :: 0 :: 0 :: 0 :: 0 :: 0 :: 0 :: 0 :: 0 :: 0 :: toyEnc rest

/-- Inverse of `toyEnc`. -/
def toyDec : Bytes → JStr
  | b0 :: b1 :: b2 :: _ :: _ :: _ :: _ :: _ :: _ :: _ :: _ :: _ :: _ :: _ :: _ :: _ :: rest =>
      Char.ofNat (b0 + 256 * b1 + 65536 * b2) :: toyDec rest
  | _ => []

/-- Executable stand-in for the GCM (stream-mode) cipher pipeline: one
output byte per UTF-8 plaintext byte, no padding — the length behaviour
node:crypto documents for the GCM identifiers. -/
def toyEncStream : JStr → Bytes
  | [] => []
  | ch :: rest => List.replicate ch.utf8Size (ch.toNat % 256) ++ toyEncStream rest

/-- Bytes of an ASCII text back to characters (the `toString()` step in
front of `JSON.parse`, restricted to the ASCII payloads of this model). -/
def bytesToChars (bs : Bytes) : JStr := bs.map Char.ofNat

/-- Executable parser for flat JSON objects with string values, e.g.
`\x7b"iv":"...","hmac":"...","cipherText":"..."\x7d`; enough of `JSON.parse`
to cover every text the codec serialises, plus objects with other flat
string fields for concrete witness payloads.  The first argument is fuel,
bounded by the input length. -/
def parseFields : Nat → JStr → Option Jobj
  | 0, _ => none
  | fuel + 1, cs =>
    match cs with
    | '"' :: rest =>
      (let key := rest.takeWhile (· != '"')
       match rest.dropWhile (· != '"') with
       | '"' :: ':' :: '"' :: rest2 =>
         (let v := rest2.takeWhile (· != '"')
          match rest2.dropWhile (· != '"') with
          | '"' :: ',' :: rest3 =>
            (parseFields fuel rest3).map (fun fs => (key.asString, JVal.jstr v) :: fs)
          | ['"', '\x7d'] => some [(key.asString, JVal.jstr v)]
          | _ => none)
       | _ => none)
    | _ => none

/-- Executable stand-in for `JSON.parse(buffer.toString())` over flat string
objects. -/
def toyParse (bs : Bytes) : Option Jobj :=
  match bytesToChars bs with
  | '\x7b' :: rest => parseFields rest.length rest
  | _ => none

/-- A concrete, executable instantiation of the external-primitive boundary,
used by witnesses and counterexamples, mode-faithful to node:crypto: the CBC
identifiers get the invertible block-aligned cipher stand-in, the GCM
identifiers get the unpadded stream stand-in whose decipher pipeline always
throws the missing-auth-tag error; plus a fixed 32-byte tag, a deterministic
byte source, and the flat-object parser. -/
def toyCrypto : Crypto where
  cipherEnc := fun cip _ _ pt =>
    match cip with
    | .aes_128_gcm | .aes_256_gcm => toyEncStream pt
    | _ => toyEnc pt
  cipherDecFinal := fun cip _ _ ct =>
    match cip with
    | .aes_128_gcm | .aes_256_gcm =>
        .error "Unsupported state or unable to authenticate data"
    | _ => .ok (toyDec ct)
  hmacSHA256 := fun _ _ => List.replicate 32 0
  randomBytes := fun n => List.replicate n 65
  jsonParse := toyParse

/-- A concrete 32-byte key for witness computations. -/
def key0 : Bytes := List.replicate 32 0

/-- A concrete service instance (32-byte key, default cipher). -/
def svc0 : EncryptionService := { key := key0, cipher := .aes_256_cbc }

/-- Options whose construction yields `svc0`. -/
def opts0 : EncryptionModuleOptions := { key := b64encode key0, cipher := some .aes_256_cbc }

/-- A service instance with the same 32-byte key and a GCM-named cipher
(32 bytes is the correct key length for aes-256-gcm). -/
def svcGcm : EncryptionService := { key := key0, cipher := .aes_256_gcm }

/-- Options whose construction yields `svcGcm`. -/
def optsGcm : EncryptionModuleOptions := { key := b64encode key0, cipher := some .aes_256_gcm }

/-- A structurally valid payload whose hmac field decodes to zero bytes:
its empty string is canonical base64 ("" decodes to no bytes and re-encodes
to ""), so the hmac decode step accepts it, and the empty ciphertext is
block-aligned. -/
def c2Payload : JStr :=
  b64encode (strBytes (stringifyAEAD (b64encode (List.replicate 16 0)) [] []))

/-- A structurally valid payload carrying a 32-byte hmac that does not match
the recomputed tag. -/
def c2wPayload : JStr :=
  b64encode (strBytes (stringifyAEAD (b64encode (List.replicate 16 0))
    (b64encode (1 :: List.replicate 31 0)) []))

/-- A payload whose iv field is the non-base64 string "invalid iv" while the
hmac and cipherText fields are valid. -/
def c4Payload : JStr :=
  b64encode (strBytes (stringifyAEAD "invalid iv".toList [] []))

/-- A payload whose JSON object is missing the hmac field. -/
def c7Payload : JStr :=
  b64encode (strBytes "\x7b\"iv\":\"iv\",\"cipherText\":\"cipherText\"\x7d".toList)

/-- A payload with exactly the three required fields. -/
def c10PayloadA : JStr :=
  b64encode (strBytes "\x7b\"iv\":\"aa\",\"cipherText\":\"bb\",\"hmac\":\"cc\"\x7d".toList)

/-- The same three fields as `c10PayloadA` plus an additional field. -/
def c10PayloadB : JStr :=
  b64encode (strBytes
    "\x7b\"iv\":\"aa\",\"cipherText\":\"bb\",\"hmac\":\"cc\",\"extra\":\"dd\"\x7d".toList)

theorem b64chars_length : b64chars.length = 64 := rfl

theorem b64char_facts (v : Nat) :
    (b64char v).toNat < 128 ∧ b64char v ≠ '"' ∧ b64char v ≠ '=' := by
  unfold b64char
  rcases Nat.lt_or_ge v 64 with h | h
  · have hall : ∀ w < 64, (b64chars.getD w 'A').toNat < 128 ∧
        b64chars.getD w 'A' ≠ '"' ∧ b64chars.getD w 'A' ≠ '=' := by decide
    exact hall v h
  · rw [List.getD_eq_default]
    · exact ⟨by decide, by decide, by decide⟩
    · rw [b64chars_length]; omega

theorem b64val_b64char {v : Nat} (h : v < 64) : b64val (b64char v) = v := by
  have hall : ∀ w < 64, b64val (b64char w) = w := by decide
  exact hall v h

theorem b64char_bne_pad (v : Nat) : (b64char v != '=') = true :=
  bne_iff_ne.mpr (b64char_facts v).2.2

theorem b64decode_b64encode (bs : Bytes) (h : ∀ x ∈ bs, x < 256) :
    b64decode (b64encode bs) = bs := by
  induction bs using b64encode.induct with
  | case1 => rfl
  | case2 a =>
      have ha : a < 256 := h a (by simp)
      have h1 : a / 4 < 64 := by omega
      have h2 : a % 4 * 16 < 64 := by omega
      simp [b64encode, b64decode, List.filter_cons, b64char_bne_pad,
        b64val_b64char h1, b64val_b64char h2, decode6]
      omega
  | case3 a b =>
      have ha : a < 256 := h a (by simp)
      have hb : b < 256 := h b (by simp)
      have h1 : a / 4 < 64 := by omega
      have h2 : a % 4 * 16 + b / 16 < 64 := by omega
      have h3 : b % 16 * 4 < 64 := by omega
      simp [b64encode, b64decode, List.filter_cons, b64char_bne_pad,
        b64val_b64char h1, b64val_b64char h2, b64val_b64char h3, decode6]
      omega
  | case4 a b c rest ih =>
      have ha : a < 256 := h a (by simp)
      have hb : b < 256 := h b (by simp)
      have hc : c < 256 := h c (by simp)
      have hrest : ∀ x ∈ rest, x < 256 := fun x hx => h x (by simp [hx])
      have h1 : a / 4 < 64 := by omega
      have h2 : a % 4 * 16 + b / 16 < 64 := by omega
      have h3 : b % 16 * 4 + c / 64 < 64 := by omega
      have h4 : c % 64 < 64 := by omega
      have ihx := ih hrest
      simp only [b64decode] at ihx
      simp [b64encode, b64decode, List.filter_cons, b64char_bne_pad,
        b64val_b64char h1, b64val_b64char h2, b64val_b64char h3,
        b64val_b64char h4, decode6, ihx]
      omega

theorem b64encode_length (bs : Bytes) :
    (b64encode bs).length = 4 * ((bs.length + 2) / 3) := by
  induction bs using b64encode.induct with
  | case1 => rfl
  | case2 a =>
      simp only [b64encode, List.length_cons, List.length_nil]
  | case3 a b =>
      simp only [b64encode, List.length_cons, List.length_nil]
  | case4 a b c rest ih =>
      simp only [b64encode, List.length_cons, ih]
      omega

theorem b64encode_toNat_lt (bs : Bytes) : ∀ ch ∈ b64encode bs, ch.toNat < 128 := by
  induction bs using b64encode.induct with
  | case1 => simp [b64encode]
  | case2 a =>
      intro ch hch
      simp only [b64encode, List.mem_cons, List.not_mem_nil, or_false] at hch
      rcases hch with h | h | h | h <;> subst h
      · exact (b64char_facts _).1
      · exact (b64char_facts _).1
      · decide
      · decide
  | case3 a b =>
      intro ch hch
      simp only [b64encode, List.mem_cons, List.not_mem_nil, or_false] at hch
      rcases hch with h | h | h | h <;> subst h
      · exact (b64char_facts _).1
      · exact (b64char_facts _).1
      · exact (b64char_facts _).1
      · decide
  | case4 a b c rest ih =>
      intro ch hch
      simp only [b64encode, List.mem_cons] at hch
      rcases hch with h | h | h | h | h
      · subst h; exact (b64char_facts _).1
      · subst h; exact (b64char_facts _).1
      · subst h; exact (b64char_facts _).1
      · subst h; exact (b64char_facts _).1
      · exact ih ch h

theorem b64encode_ne_quote (bs : Bytes) : ∀ ch ∈ b64encode bs, ch ≠ '"' := by
  induction bs using b64encode.induct with
  | case1 => simp [b64encode]
  | case2 a =>
      intro ch hch
      simp only [b64encode, List.mem_cons, List.not_mem_nil, or_false] at hch
      rcases hch with h | h | h | h <;> subst h
      · exact (b64char_facts _).2.1
      · exact (b64char_facts _).2.1
      · decide
      · decide
  | case3 a b =>
      intro ch hch
      simp only [b64encode, List.mem_cons, List.not_mem_nil, or_false] at hch
      rcases hch with h | h | h | h <;> subst h
      · exact (b64char_facts _).2.1
      · exact (b64char_facts _).2.1
      · exact (b64char_facts _).2.1
      · decide
  | case4 a b c rest ih =>
      intro ch hch
      simp only [b64encode, List.mem_cons] at hch
      rcases hch with h | h | h | h | h
      · subst h; exact (b64char_facts _).2.1
      · subst h; exact (b64char_facts _).2.1
      · subst h; exact (b64char_facts _).2.1
      · subst h; exact (b64char_facts _).2.1
      · exact ih ch h

theorem computeHmac_eq (c : Crypto) (self : EncryptionService) (ct iv : Bytes) :
    self.computeHmac c ct iv = c.hmacSHA256 self.key (ct ++ iv) := by
  simp [EncryptionService.computeHmac, createHmac, HmacCtx.update, HmacCtx.digest]

theorem verifyHmac_computeHmac (c : Crypto) (self : EncryptionService) (ct iv : Bytes) :
    self.verifyHmac c ct iv (self.computeHmac c ct iv) = .ok () := by
  simp [EncryptionService.verifyHmac, timingSafeEqual]

theorem decodeIV_encode (self : EncryptionService) (iv : Bytes)
    (hb : ∀ x ∈ iv, x < 256) (hl : iv.length = (ciphers self.cipher).ivLength) :
    self.decodeIV (.jstr (b64encode iv)) = .ok iv := by
  simp [EncryptionService.decodeIV, b64decode_b64encode iv hb, hl]

theorem decodeHmac_encode (hm : Bytes) (hb : ∀ x ∈ hm, x < 256) :
    EncryptionService.decodeHmac (.jstr (b64encode hm)) = .ok hm := by
  simp [EncryptionService.decodeHmac, b64decode_b64encode hm hb]

theorem decodeCipherText_encode (self : EncryptionService) (ct : Bytes)
    (hb : ∀ x ∈ ct, x < 256) :
    self.decodeCipherText (.jstr (b64encode ct)) =
      if ct.length % (ciphers self.cipher).blockLength = 0 then .ok ct
      else .error "The length of the decoded ciphertext is not a multiple of the cipher's block length." := by
  by_cases hmod : ct.length % (ciphers self.cipher).blockLength = 0
  · simp [EncryptionService.decodeCipherText, b64decode_b64encode ct hb, hmod]
  · simp [EncryptionService.decodeCipherText, b64decode_b64encode ct hb, hmod]

theorem stringifyAEAD_toNat_lt (x y z : Bytes) :
    ∀ ch ∈ stringifyAEAD (b64encode x) (b64encode y) (b64encode z), ch.toNat < 256 := by
  unfold stringifyAEAD
  refine List.forall_mem_append.mpr ⟨List.forall_mem_append.mpr
    ⟨List.forall_mem_append.mpr ⟨List.forall_mem_append.mpr
    ⟨List.forall_mem_append.mpr ⟨List.forall_mem_append.mpr
    ⟨?_, ?_⟩, ?_⟩, ?_⟩, ?_⟩, ?_⟩, ?_⟩
  · decide
  · intro ch h
    have := b64encode_toNat_lt x ch h
    omega
  · decide
  · intro ch h
    have := b64encode_toNat_lt y ch h
    omega
  · decide
  · intro ch h
    have := b64encode_toNat_lt z ch h
    omega
  · decide

theorem strBytes_stringify_lt (x y z : Bytes) :
    ∀ v ∈ strBytes (stringifyAEAD (b64encode x) (b64encode y) (b64encode z)), v < 256 := by
  intro v hv
  simp only [strBytes, List.mem_map] at hv
  obtain ⟨ch, hch, rfl⟩ := hv
  exact stringifyAEAD_toNat_lt x y z ch hch

theorem decodeAEADPayload_encryptWithIV (c : Crypto) (hc : CryptoOK c)
    (self : EncryptionService) (pt : JStr) (iv : Bytes)
    (hivb : ∀ x ∈ iv, x < 256)
    (hivl : iv.length = (ciphers self.cipher).ivLength) :
    self.decodeAEADPayload c (self.encryptWithIV c pt iv) =
      if (c.cipherEnc self.cipher self.key iv pt).length % (ciphers self.cipher).blockLength = 0 then
        .ok { iv := iv,
              hmac := self.computeHmac c (c.cipherEnc self.cipher self.key iv pt) iv,
              cipherText := c.cipherEnc self.cipher self.key iv pt }
      else
        .error "The length of the decoded ciphertext is not a multiple of the cipher's block length." := by
  have e1 : ("iv" == "iv") = true := by decide
  have e2 : ("cipherText" == "iv") = false := by decide
  have e3 : ("cipherText" == "hmac") = false := by decide
  have e4 : ("cipherText" == "cipherText") = true := by decide
  have e5 : ("hmac" == "iv") = false := by decide
  have e6 : ("hmac" == "hmac") = true := by decide
  have hctb : ∀ x ∈ c.cipherEnc self.cipher self.key iv pt, x < 256 :=
    hc.enc_bytes _ _ _ _
  have hhmb : ∀ x ∈ self.computeHmac c (c.cipherEnc self.cipher self.key iv pt) iv, x < 256 := by
    rw [computeHmac_eq]
    exact hc.hmac_bytes _ _
  have hparse := hc.parse_stringify (b64encode iv)
    (b64encode (self.computeHmac c (c.cipherEnc self.cipher self.key iv pt) iv))
    (b64encode (c.cipherEnc self.cipher self.key iv pt))
    (b64encode_ne_quote _) (b64encode_ne_quote _) (b64encode_ne_quote _)
  have hbytes : ∀ v ∈ strBytes (stringifyAEAD (b64encode iv)
      (b64encode (self.computeHmac c (c.cipherEnc self.cipher self.key iv pt) iv))
      (b64encode (c.cipherEnc self.cipher self.key iv pt))), v < 256 :=
    strBytes_stringify_lt _ _ _
  simp only [EncryptionService.encryptWithIV, EncryptionService.encryptPayload,
    EncryptionService.decodeAEADPayload]
  rw [b64decode_b64encode _ hbytes]
  rw [if_neg (by simp)]
  rw [hparse]
  simp only [hasOwn, getField, List.lookup, e1, e2, e3, e4, e5, e6,
    Option.isSome_some, Bool.not_true, if_false, Option.getD_some,
    cond_true, cond_false, Bool.false_eq_true]
  rw [decodeIV_encode self iv hivb hivl]
  rw [decodeHmac_encode _ hhmb]
  rw [decodeCipherText_encode self _ hctb]
  by_cases hmod : (c.cipherEnc self.cipher self.key iv pt).length
      % (ciphers self.cipher).blockLength = 0
  · simp [hmod]
  · simp [hmod]

theorem takeWhile_append_quote (a : JStr) (ha : ∀ ch ∈ a, ch ≠ '"') (l : JStr) :
    (a ++ '"' :: l).takeWhile (· != '"') = a := by
  induction a with
  | nil => simp
  | cons c cs ih =>
      have hc : (c != '"') = true := bne_iff_ne.mpr (ha c (by simp))
      have ih2 := ih (fun ch hch => ha ch (by simp [hch]))
      simp [List.takeWhile_cons, hc, ih2]

theorem dropWhile_append_quote (a : JStr) (ha : ∀ ch ∈ a, ch ≠ '"') (l : JStr) :
    (a ++ '"' :: l).dropWhile (· != '"') = '"' :: l := by
  induction a with
  | nil => simp
  | cons c cs ih =>
      have hc : (c != '"') = true := bne_iff_ne.mpr (ha c (by simp))
      have ih2 := ih (fun ch hch => ha ch (by simp [hch]))
      simp [List.dropWhile_cons, hc, ih2]

theorem parseFields_stringify (fuel : Nat) (a b cv : JStr)
    (ha : ∀ ch ∈ a, ch ≠ '"') (hb : ∀ ch ∈ b, ch ≠ '"') (hcv : ∀ ch ∈ cv, ch ≠ '"') :
    parseFields (fuel + 1 + 1 + 1)
      ('"' :: 'i' :: 'v' :: '"' :: ':' :: '"' ::
        (a ++ '"' :: ',' :: '"' :: 'h' :: 'm' :: 'a' :: 'c' :: '"' :: ':' :: '"' ::
          (b ++ '"' :: ',' :: '"' :: 'c' :: 'i' :: 'p' :: 'h' :: 'e' :: 'r' :: 'T' ::
            'e' :: 'x' :: 't' :: '"' :: ':' :: '"' :: (cv ++ '"' :: '\x7d' :: [])))) =
      some [("iv", JVal.jstr a), ("hmac", JVal.jstr b), ("cipherText", JVal.jstr cv)] := by
  simp [parseFields, List.takeWhile_cons, List.dropWhile_cons,
    takeWhile_append_quote a ha, dropWhile_append_quote a ha,
    takeWhile_append_quote b hb, dropWhile_append_quote b hb,
    takeWhile_append_quote cv hcv, dropWhile_append_quote cv hcv]
  exact ⟨rfl, rfl, rfl⟩

theorem bytesToChars_strBytes (s : JStr) : bytesToChars (strBytes s) = s := by
  induction s with
  | nil => rfl
  | cons ch rest ih =>
      simp only [strBytes, bytesToChars, List.map_cons, Char.ofNat_toNat]
      simp only [strBytes, bytesToChars] at ih
      rw [ih]

theorem toyParse_stringify (a b cv : JStr)
    (ha : ∀ ch ∈ a, ch ≠ '"') (hb : ∀ ch ∈ b, ch ≠ '"') (hcv : ∀ ch ∈ cv, ch ≠ '"') :
    toyParse (strBytes (stringifyAEAD a b cv)) =
      some [("iv", .jstr a), ("hmac", .jstr b), ("cipherText", .jstr cv)] := by
  have hshape : stringifyAEAD a b cv =
      '\x7b' :: '"' :: 'i' :: 'v' :: '"' :: ':' :: '"' ::
        (a ++ '"' :: ',' :: '"' :: 'h' :: 'm' :: 'a' :: 'c' :: '"' :: ':' :: '"' ::
          (b ++ '"' :: ',' :: '"' :: 'c' :: 'i' :: 'p' :: 'h' :: 'e' :: 'r' :: 'T' ::
            'e' :: 'x' :: 't' :: '"' :: ':' :: '"' :: (cv ++ '"' :: '\x7d' :: []))) := by
    simp [stringifyAEAD]
  have hlen : ('"' :: 'i' :: 'v' :: '"' :: ':' :: '"' ::
        (a ++ '"' :: ',' :: '"' :: 'h' :: 'm' :: 'a' :: 'c' :: '"' :: ':' :: '"' ::
          (b ++ '"' :: ',' :: '"' :: 'c' :: 'i' :: 'p' :: 'h' :: 'e' :: 'r' :: 'T' ::
            'e' :: 'x' :: 't' :: '"' :: ':' :: '"' :: (cv ++ '"' :: '\x7d' :: [])))).length
      = (a.length + b.length + cv.length + 31) + 1 + 1 + 1 := by
    simp only [List.length_cons, List.length_append, List.length_nil]
    omega
  rw [hshape]
  simp only [toyParse, bytesToChars_strBytes]
  rw [hlen]
  exact parseFields_stringify _ a b cv ha hb hcv

theorem char_toNat_lt (ch : Char) : ch.toNat < 1114112 := by
  have h := ch.valid
  simp only [UInt32.isValidChar, Nat.isValidChar] at h
  simp only [Char.toNat]
  rcases h with h | h <;> omega

theorem toyDec_toyEnc (pt : JStr) : toyDec (toyEnc pt) = pt := by
  induction pt with
  | nil => rfl
  | cons ch rest ih =>
      have hv : ch.toNat < 1114112 := char_toNat_lt ch
      have harg : ch.toNat % 256 + 256 * (ch.toNat / 256 % 256) +
          65536 * (ch.toNat / 65536) = ch.toNat := by omega
      simp only [toyEnc, toyDec, ih, harg, Char.ofNat_toNat]

theorem toyEnc_length (pt : JStr) : (toyEnc pt).length = 16 * pt.length := by
  induction pt with
  | nil => rfl
  | cons ch rest ih =>
      simp only [toyEnc, List.length_cons, ih]
      omega

theorem toyEnc_lt (pt : JStr) : ∀ x ∈ toyEnc pt, x < 256 := by
  induction pt with
  | nil => simp [toyEnc]
  | cons ch rest ih =>
      intro x hx
      have hv : ch.toNat < 1114112 := char_toNat_lt ch
      simp only [toyEnc, List.mem_cons] at hx
      rcases hx with h|h|h|h|h|h|h|h|h|h|h|h|h|h|h|h|h
      all_goals try (subst h; omega)
      exact ih x h

theorem toyEncStream_length (pt : JStr) : (toyEncStream pt).length = utf8Len pt := by
  induction pt with
  | nil => rfl
  | cons ch rest ih =>
      simp only [toyEncStream, utf8Len, List.length_append, List.length_replicate, ih]

theorem toyEncStream_lt (pt : JStr) : ∀ x ∈ toyEncStream pt, x < 256 := by
  induction pt with
  | nil => simp [toyEncStream]
  | cons ch rest ih =>
      intro x hx
      simp only [toyEncStream, List.mem_append, List.mem_replicate] at hx
      rcases hx with ⟨hn, rfl⟩ | hx
      · omega
      · exact ih x hx

theorem toyCryptoOK : CryptoOK toyCrypto where
  enc_block := by
    intro cip key iv pt hcbc
    rcases hcbc with h | h <;> subst h <;>
      simp [toyCrypto, ciphers, toyEnc_length, Nat.mul_mod_right]
  enc_bytes := by
    intro cip key iv pt x hx
    cases cip <;> simp only [toyCrypto] at hx
    · exact toyEnc_lt pt x hx
    · exact toyEnc_lt pt x hx
    · exact toyEncStream_lt pt x hx
    · exact toyEncStream_lt pt x hx
  dec_enc := by
    intro cip key iv pt hcbc
    rcases hcbc with h | h <;> subst h <;> simp [toyCrypto, toyDec_toyEnc]
  gcm_stream := by
    intro cip key iv pt hgcm
    rcases hgcm with h | h <;> subst h <;> simp [toyCrypto, toyEncStream_length]
  gcm_final := by
    intro cip key iv ct hgcm
    rcases hgcm with h | h <;> subst h <;> simp [toyCrypto]
  hmac_len := by
    intro key msg
    simp [toyCrypto]
  hmac_bytes := by
    intro key msg x hx
    simp [toyCrypto] at hx
    omega
  rnd_len := by
    intro n
    simp [toyCrypto]
  rnd_bytes := by
    intro n x hx
    simp [toyCrypto] at hx
    omega
  parse_stringify := by
    intro a b cv ha hb hcv
    exact toyParse_stringify a b cv ha hb hcv

theorem decodeKey_ok {cip : Cipher} {key : JStr} {k : Bytes}
    (h : EncryptionService.decodeKey cip key = .ok k) :
    k = b64decode key ∧ k.length = (ciphers cip).keyLength := by
  simp only [EncryptionService.decodeKey] at h
  by_cases h1 : b64encode (b64decode key) ≠ key
  · rw [if_pos h1] at h
    cases h
  · rw [if_neg h1] at h
    by_cases h2 : (b64decode key).length ≠ (ciphers cip).keyLength
    · rw [if_pos h2] at h
      cases h
    · rw [if_neg h2] at h
      cases h
      exact ⟨rfl, not_ne_iff.mp h2⟩

/-- C1 (amended): for every valid (base64 key of the right length,
enumerated cipher, plaintext) triple — i.e. every successfully constructed
service — under the documented per-mode behaviour of the node:crypto
primitives (`CryptoOK`): when the instance's cipher is one of the two CBC
identifiers, decrypting the result of encrypting a plaintext on the same
instance returns the original plaintext; when it is one of the two
GCM-named identifiers, the round trip instead always fails with a
`UnableToDecrypt` error (the unpadded stream ciphertext fails the
block-length check unless the plaintext's byte length is a multiple of the
block length, and otherwise the decipher's missing auth tag makes `final()`
throw), refuting the original all-four-ciphers claim. -/
theorem claim1_roundtrip (c : Crypto) (hc : CryptoOK c)
    (options : EncryptionModuleOptions) (self : EncryptionService)
    (hok : construct options = .ok self) (plaintext : JStr) :
    ((self.cipher = Cipher.aes_128_cbc ∨ self.cipher = Cipher.aes_256_cbc) →
      self.decrypt c (self.encrypt c plaintext) = .ok plaintext) ∧
    ((self.cipher = Cipher.aes_128_gcm ∨ self.cipher = Cipher.aes_256_gcm) →
      ∃ reason, self.decrypt c (self.encrypt c plaintext) =
        .error (.unableToDecrypt reason)) := by
  have hivb : ∀ x ∈ self.generateIV c, x < 256 := hc.rnd_bytes _
  have hivl : (self.generateIV c).length = (ciphers self.cipher).ivLength :=
    hc.rnd_len _
  have hd := decodeAEADPayload_encryptWithIV c hc self plaintext (self.generateIV c) hivb hivl
  constructor
  · intro hcbc
    have hblock := hc.enc_block self.cipher self.key (self.generateIV c) plaintext hcbc
    rw [if_pos hblock] at hd
    have hdec := hc.dec_enc self.cipher self.key (self.generateIV c) plaintext hcbc
    simp only [EncryptionService.encrypt, EncryptionService.decrypt,
      EncryptionService.decryptInner, hd, verifyHmac_computeHmac, hdec]
  · intro hgcm
    by_cases hblock : (c.cipherEnc self.cipher self.key (self.generateIV c) plaintext).length
        % (ciphers self.cipher).blockLength = 0
    · rw [if_pos hblock] at hd
      have hfin := hc.gcm_final self.cipher self.key (self.generateIV c)
        (c.cipherEnc self.cipher self.key (self.generateIV c) plaintext) hgcm
      refine ⟨"Unsupported state or unable to authenticate data", ?_⟩
      simp only [EncryptionService.encrypt, EncryptionService.decrypt,
        EncryptionService.decryptInner, hd, verifyHmac_computeHmac, hfin]
    · rw [if_neg hblock] at hd
      refine ⟨"The length of the decoded ciphertext is not a multiple of the cipher's block length.", ?_⟩
      simp only [EncryptionService.encrypt, EncryptionService.decrypt,
        EncryptionService.decryptInner, hd]

/-- C2 (amended): for every payload that passes all structural decoding
steps, if the decoded hmac differs from the recomputed
HMAC-SHA256(key, cipherText || iv), then decrypt raises `UnableToDecrypt`
with the signature-mismatch reason when the decoded hmac is 32 bytes long,
and with the length error of the comparison primitive ("Input buffers must
have the same byte length") when it is not — the original claim wrongly
asserted the signature-mismatch reason in the second case as well. -/
theorem claim2_hmac_mismatch (c : Crypto)
    (h32 : ∀ key msg, (c.hmacSHA256 key msg).length = 32)
    (self : EncryptionService) (s : JStr) (p : AEADPayload Bytes)
    (hdec : self.decodeAEADPayload c s = .ok p)
    (hne : p.hmac ≠ self.computeHmac c p.cipherText p.iv) :
    self.decrypt c s = .error (.unableToDecrypt
      (if p.hmac.length = 32 then "The signature does not match the encrypted payload."
       else "Input buffers must have the same byte length")) := by
  have hcl : (self.computeHmac c p.cipherText p.iv).length = 32 := by
    rw [computeHmac_eq]
    exact h32 _ _
  have hne2 : (self.computeHmac c p.cipherText p.iv == p.hmac) = false :=
    beq_eq_false_iff_ne.mpr (Ne.symm hne)
  by_cases hl : p.hmac.length = 32
  · rw [if_pos hl]
    have hts : timingSafeEqual (self.computeHmac c p.cipherText p.iv) p.hmac = .ok false := by
      rw [timingSafeEqual, if_neg (by omega), hne2]
    simp [EncryptionService.decrypt, EncryptionService.decryptInner, hdec,
      EncryptionService.verifyHmac, hts]
  · rw [if_neg hl]
    have hts : timingSafeEqual (self.computeHmac c p.cipherText p.iv) p.hmac =
        .error "Input buffers must have the same byte length" := by
      rw [timingSafeEqual, if_pos (by omega)]
    simp [EncryptionService.decrypt, EncryptionService.decryptInner, hdec,
      EncryptionService.verifyHmac, hts]

/-- C3: the integrity tag placed in the payload by encrypt equals
HMAC-SHA256 keyed with the instance key over the ciphertext bytes followed
by the IV bytes, produced by one incremental digest (`computeHmac` feeds one
`createHmac` context with two `update` calls, so the digested message is
exactly `cipherText ++ iv`), and the computation is identical for every
cipher identifier (the statement holds for every `self`, and `computeHmac`
never consults `self.cipher`). -/
theorem claim3_hmac_over_ct_iv (c : Crypto) (self : EncryptionService)
    (plaintext : JStr) (iv : Bytes) :
    (self.encryptPayload c plaintext iv).hmac =
      b64encode (c.hmacSHA256 self.key
        (c.cipherEnc self.cipher self.key iv plaintext ++ iv)) := by
  simp [EncryptionService.encryptPayload, computeHmac_eq]

/-- C5: constructing with a key string that fails the canonical base64
round-trip check raises `UnableToInitialize` with the base64-validity
reason; constructing with a canonically encoded key whose decoded length
differs from the cipher's keyLength raises `UnableToInitialize` with the
length-mismatch reason, the expected byte count interpolated, for every
enumerated cipher. -/
theorem claim5_construct_validation (key : JStr) (cip : Cipher) :
    (b64encode (b64decode key) ≠ key →
      construct { key := key, cipher := some cip } =
        .error (.unableToInitialize "The key must be a valid base64-encoded string.")) ∧
    (b64encode (b64decode key) = key → (b64decode key).length ≠ (ciphers cip).keyLength →
      construct { key := key, cipher := some cip } =
        .error (.unableToInitialize ("The decoded key must be " ++
          toString (ciphers cip).keyLength ++ " bytes long."))) := by
  constructor
  · intro h
    simp [construct, EncryptionService.decodeKey, h]
  · intro h hlen
    simp [construct, EncryptionService.decodeKey, h, hlen]

/-- C6: every successfully constructed instance holds a decoded key whose
byte length equals the keyLength of its cipher's profile; its cipher is the
resolved option (default aes-256-cbc) and its key is exactly the decode of
the supplied option key.  Immutability and atomicity are structural in the
model: `construct` returns either a complete record or an error, and
`encrypt`/`decrypt` take the instance as a pure value. -/
theorem claim6_instance_invariant (options : EncryptionModuleOptions)
    (self : EncryptionService) (h : construct options = .ok self) :
    self.key.length = (ciphers self.cipher).keyLength ∧
    self.cipher = options.cipher.getD Cipher.aes_256_cbc ∧
    self.key = b64decode options.key := by
  simp only [construct] at h
  cases hk : EncryptionService.decodeKey (options.cipher.getD Cipher.aes_256_cbc) options.key with
  | error m =>
      rw [hk] at h
      cases h
  | ok k =>
      rw [hk] at h
      cases h
      obtain ⟨hkey, hlen⟩ := decodeKey_ok hk
      exact ⟨hlen, rfl, hkey⟩

/-- C4: the payload fields are validated in the fixed order iv, then hmac,
then cipherText, failing closed at the first violation: for any payload that
passes the outer base64 check, parses, and has all three fields, if the iv
field is a string failing the canonical base64 round-trip check then decrypt
raises `UnableToDecrypt` with exactly the IV base64-validity reason —
whatever the hmac and cipherText fields contain, and not the IV length
reason or any later-stage reason. -/
theorem claim4_iv_checked_first (c : Crypto) (self : EncryptionService)
    (s : JStr) (pkg : Jobj)
    (houter : b64encode (b64decode s) = s)
    (hparse : c.jsonParse (b64decode s) = some pkg)
    (hiv : hasOwn pkg "iv" = true) (hct : hasOwn pkg "cipherText" = true)
    (hhm : hasOwn pkg "hmac" = true)
    (ivs : JStr) (hfield : getField pkg "iv" = .jstr ivs)
    (hbad : b64encode (b64decode ivs) ≠ ivs) :
    self.decrypt c s =
      .error (.unableToDecrypt "The IV is not a valid base64-encoded string.") := by
  have hdec : self.decodeAEADPayload c s =
      .error "The IV is not a valid base64-encoded string." := by
    simp [EncryptionService.decodeAEADPayload, EncryptionService.decodeIV,
      houter, hparse, hiv, hct, hhm, hfield, hbad]
  simp [EncryptionService.decrypt, EncryptionService.decryptInner, hdec]

/-- C7: when the parsed JSON payload is missing one or more of the three
required fields, decrypt raises `UnableToDecrypt` naming exactly the first
missing field in the fixed checking order iv, cipherText, hmac, with the
reason "The AEAD payload is missing the <field> field.". -/
theorem claim7_missing_field (c : Crypto) (self : EncryptionService)
    (s : JStr) (pkg : Jobj)
    (houter : b64encode (b64decode s) = s)
    (hparse : c.jsonParse (b64decode s) = some pkg) :
    (hasOwn pkg "iv" = false →
      self.decrypt c s = .error (.unableToDecrypt (missingFieldMsg "iv"))) ∧
    (hasOwn pkg "iv" = true → hasOwn pkg "cipherText" = false →
      self.decrypt c s = .error (.unableToDecrypt (missingFieldMsg "cipherText"))) ∧
    (hasOwn pkg "iv" = true → hasOwn pkg "cipherText" = true → hasOwn pkg "hmac" = false →
      self.decrypt c s = .error (.unableToDecrypt (missingFieldMsg "hmac"))) := by
  refine ⟨fun h1 => ?_, fun h1 h2 => ?_, fun h1 h2 h3 => ?_⟩
  · simp [EncryptionService.decrypt, EncryptionService.decryptInner,
      EncryptionService.decodeAEADPayload, houter, hparse, h1]
  · simp [EncryptionService.decrypt, EncryptionService.decryptInner,
      EncryptionService.decodeAEADPayload, houter, hparse, h1, h2]
  · simp [EncryptionService.decrypt, EncryptionService.decryptInner,
      EncryptionService.decodeAEADPayload, houter, hparse, h1, h2, h3]

/-- C10: decrypt ignores extra JSON fields: two well-formed encoded payloads
whose parsed objects agree on the presence and value of the iv, cipherText
and hmac fields decrypt to the same outcome, whatever other fields either
object carries; in particular the presence check never rejects an object for
having more than three fields. -/
theorem claim10_extra_fields_ignored (c : Crypto) (self : EncryptionService)
    (s1 s2 : JStr) (o1 o2 : Jobj)
    (h1 : b64encode (b64decode s1) = s1) (h2 : b64encode (b64decode s2) = s2)
    (hp1 : c.jsonParse (b64decode s1) = some o1)
    (hp2 : c.jsonParse (b64decode s2) = some o2)
    (hiv : hasOwn o1 "iv" = hasOwn o2 "iv")
    (hivv : getField o1 "iv" = getField o2 "iv")
    (hct : hasOwn o1 "cipherText" = hasOwn o2 "cipherText")
    (hctv : getField o1 "cipherText" = getField o2 "cipherText")
    (hhm : hasOwn o1 "hmac" = hasOwn o2 "hmac")
    (hhmv : getField o1 "hmac" = getField o2 "hmac") :
    self.decrypt c s1 = self.decrypt c s2 := by
  have hd : self.decodeAEADPayload c s1 = self.decodeAEADPayload c s2 := by
    simp [EncryptionService.decodeAEADPayload, h1, h2, hp1, hp2,
      hiv, hivv, hct, hctv, hhm, hhmv]
  simp only [EncryptionService.decrypt, EncryptionService.decryptInner, hd]

theorem strBytes_inj {s t : JStr} (h : strBytes s = strBytes t) : s = t := by
  have hinj : Function.Injective Char.toNat := by
    intro a b hab
    exact Char.ext (UInt32.toNat.inj hab)
  exact List.map_injective_iff.mpr hinj h

theorem stringifyAEAD_iv_inj {a1 b1 c1 a2 b2 c2 : JStr}
    (hlen : a1.length = a2.length)
    (h : stringifyAEAD a1 b1 c1 = stringifyAEAD a2 b2 c2) : a1 = a2 := by
  simp only [stringifyAEAD, List.append_assoc] at h
  have h1 := List.append_inj h rfl
  exact (List.append_inj h1.2 hlen).1

/-- C9: two encrypt calls on the same instance with the same plaintext and
key produce different wire outputs whenever the two freshly drawn IVs (each
of the profile's ivLength bytes, as `randomBytes` returns) differ: the wire
string determines the IV, so distinct IVs give distinct outputs. -/
theorem claim9_iv_freshness (c : Crypto) (self : EncryptionService)
    (plaintext : JStr) (iv1 iv2 : Bytes)
    (hl1 : iv1.length = (ciphers self.cipher).ivLength)
    (hl2 : iv2.length = (ciphers self.cipher).ivLength)
    (hb1 : ∀ x ∈ iv1, x < 256) (hb2 : ∀ x ∈ iv2, x < 256)
    (hne : iv1 ≠ iv2) :
    self.encryptWithIV c plaintext iv1 ≠ self.encryptWithIV c plaintext iv2 := by
  intro heq
  apply hne
  simp only [EncryptionService.encryptWithIV, EncryptionService.encryptPayload] at heq
  have e1 := congrArg b64decode heq
  rw [b64decode_b64encode _ (strBytes_stringify_lt _ _ _),
    b64decode_b64encode _ (strBytes_stringify_lt _ _ _)] at e1
  have e2 := strBytes_inj e1
  have hlen : (b64encode iv1).length = (b64encode iv2).length := by
    rw [b64encode_length, b64encode_length, hl1, hl2]
  have e3 := stringifyAEAD_iv_inj hlen e2
  have e4 := congrArg b64decode e3
  rwa [b64decode_b64encode _ hb1, b64decode_b64encode _ hb2] at e4

/-- C8: for each enumerated cipher, `generateKey` returns a base64 string —
canonical, so it re-encodes to itself — that decodes to exactly
`CipherProfile.keyLength` bytes (16 for the 128-bit ciphers, 32 for the
256-bit ones, per the `ciphers` table), with no constructed instance
involved. -/
theorem claim8_generateKey (c : Crypto)
    (hlen : ∀ n, (c.randomBytes n).length = n)
    (hbytes : ∀ n, ∀ x ∈ c.randomBytes n, x < 256) (cip : Cipher) :
    b64encode (b64decode (EncryptionService.generateKey c cip)) =
      EncryptionService.generateKey c cip ∧
    (b64decode (EncryptionService.generateKey c cip)).length =
      (ciphers cip).keyLength := by
  unfold EncryptionService.generateKey
  rw [b64decode_b64encode _ (hbytes _)]
  exact ⟨rfl, hlen _⟩

/-- C2 counterexample: `c2Payload` passes every structural decoding step and
its decoded hmac (zero bytes) differs from the recomputed tag, yet decrypt
does not raise the signature-mismatch reason: the comparison primitive's
length error becomes the reason instead, refuting the claim that the
signature-mismatch reason also covers hmacs that are not 32 bytes long. -/
theorem claim2_counterexample :
    svc0.decodeAEADPayload toyCrypto c2Payload =
      .ok { iv := List.replicate 16 0, hmac := [], cipherText := [] } ∧
    [] ≠ svc0.computeHmac toyCrypto [] (List.replicate 16 0) ∧
    svc0.decrypt toyCrypto c2Payload =
      .error (.unableToDecrypt "Input buffers must have the same byte length") ∧
    ("Input buffers must have the same byte length" ≠
      "The signature does not match the encrypted payload.") :=
  ⟨rfl, by decide, rfl, by decide⟩

/-- C1 counterexample: the triple (32-byte base64 key, aes-256-gcm,
"Hello, world!") is valid — construction succeeds — yet under the
mode-faithful boundary instantiation (which satisfies every documented
primitive fact in `CryptoOK`) decrypting the result of encrypting fails:
the 13-byte unpadded GCM ciphertext is rejected by the block-length check,
so the original all-four-ciphers round-trip claim is false. -/
theorem claim1_counterexample :
    CryptoOK toyCrypto ∧
    construct optsGcm = .ok svcGcm ∧
    svcGcm.decrypt toyCrypto (svcGcm.encrypt toyCrypto "Hello, world!".toList) =
      .error (.unableToDecrypt
        "The length of the decoded ciphertext is not a multiple of the cipher's block length.") ∧
    svcGcm.decrypt toyCrypto (svcGcm.encrypt toyCrypto "Hello, world!".toList) ≠
      .ok "Hello, world!".toList := by
  have h3 : svcGcm.decrypt toyCrypto (svcGcm.encrypt toyCrypto "Hello, world!".toList) =
      .error (.unableToDecrypt
        "The length of the decoded ciphertext is not a multiple of the cipher's block length.") := rfl
  refine ⟨toyCryptoOK, rfl, h3, ?_⟩
  rw [h3]
  simp

/-- Witness for C1 (amended) at a concrete CBC instance and plaintext. -/
theorem claim1_witness :
    construct opts0 = .ok svc0 ∧
    svc0.decrypt toyCrypto (svc0.encrypt toyCrypto "Hi".toList) = .ok "Hi".toList :=
  ⟨rfl, (claim1_roundtrip toyCrypto toyCryptoOK opts0 svc0 rfl "Hi".toList).1 (Or.inr rfl)⟩

/-- Witness for C2 (amended) at a concrete mismatching 32-byte hmac. -/
theorem claim2_witness :
    svc0.decrypt toyCrypto c2wPayload =
      .error (.unableToDecrypt
        (if (1 :: List.replicate 31 0 : Bytes).length = 32
         then "The signature does not match the encrypted payload."
         else "Input buffers must have the same byte length")) :=
  claim2_hmac_mismatch toyCrypto (fun key msg => by simp [toyCrypto]) svc0 c2wPayload
    { iv := List.replicate 16 0, hmac := 1 :: List.replicate 31 0, cipherText := [] }
    rfl (by decide)

/-- Witness for C4 at a concrete payload with a non-base64 iv field. -/
theorem claim4_witness :
    svc0.decrypt toyCrypto c4Payload =
      .error (.unableToDecrypt "The IV is not a valid base64-encoded string.") :=
  claim4_iv_checked_first toyCrypto svc0 c4Payload
    [("iv", .jstr "invalid iv".toList), ("hmac", .jstr []), ("cipherText", .jstr [])]
    (by decide) (by decide) (by decide) (by decide) (by decide)
    "invalid iv".toList (by decide) (by decide)

/-- Witness for C5 at a non-base64 key and at a wrong-length key. -/
theorem claim5_witness :
    construct { key := "invalid key".toList, cipher := some Cipher.aes_256_cbc } =
      .error (.unableToInitialize "The key must be a valid base64-encoded string.") ∧
    construct { key := b64encode (strBytes "invalid key".toList),
                cipher := some Cipher.aes_256_cbc } =
      .error (.unableToInitialize ("The decoded key must be " ++
        toString (ciphers Cipher.aes_256_cbc).keyLength ++ " bytes long.")) :=
  ⟨(claim5_construct_validation "invalid key".toList .aes_256_cbc).1 (by decide),
   (claim5_construct_validation (b64encode (strBytes "invalid key".toList))
      .aes_256_cbc).2 (by decide) (by decide)⟩

/-- Witness for C6 at a concrete construction. -/
theorem claim6_witness :
    svc0.key.length = (ciphers svc0.cipher).keyLength ∧
    svc0.cipher = opts0.cipher.getD Cipher.aes_256_cbc ∧
    svc0.key = b64decode opts0.key :=
  claim6_instance_invariant opts0 svc0 rfl

/-- Witness for C7 at a concrete payload missing the hmac field. -/
theorem claim7_witness :
    svc0.decrypt toyCrypto c7Payload =
      .error (.unableToDecrypt (missingFieldMsg "hmac")) :=
  (claim7_missing_field toyCrypto svc0 c7Payload
      [("iv", .jstr "iv".toList), ("cipherText", .jstr "cipherText".toList)]
      (by decide) (by decide)).2.2 (by decide) (by decide) (by decide)

/-- Witness for C8 at a concrete cipher. -/
theorem claim8_witness :
    b64encode (b64decode (EncryptionService.generateKey toyCrypto .aes_128_gcm)) =
      EncryptionService.generateKey toyCrypto .aes_128_gcm ∧
    (b64decode (EncryptionService.generateKey toyCrypto .aes_128_gcm)).length =
      (ciphers Cipher.aes_128_gcm).keyLength :=
  claim8_generateKey toyCrypto (fun n => by simp [toyCrypto])
    (fun n x hx => by simp [toyCrypto] at hx; omega) .aes_128_gcm

/-- Witness for C9 at two concrete distinct IVs. -/
theorem claim9_witness :
    svc0.encryptWithIV toyCrypto "Hi".toList (List.replicate 16 0) ≠
      svc0.encryptWithIV toyCrypto "Hi".toList (List.replicate 16 1) :=
  claim9_iv_freshness toyCrypto svc0 "Hi".toList
    (List.replicate 16 0) (List.replicate 16 1)
    (by decide) (by decide) (by decide) (by decide) (by decide)

/-- Witness for C10 at a three-field payload and its four-field extension. -/
theorem claim10_witness :
    svc0.decrypt toyCrypto c10PayloadA = svc0.decrypt toyCrypto c10PayloadB :=
  claim10_extra_fields_ignored toyCrypto svc0 c10PayloadA c10PayloadB
    [("iv", .jstr "aa".toList), ("cipherText", .jstr "bb".toList),
      ("hmac", .jstr "cc".toList)]
    [("iv", .jstr "aa".toList), ("cipherText", .jstr "bb".toList),
      ("hmac", .jstr "cc".toList), ("extra", .jstr "dd".toList)]
    (by decide) (by decide) (by decide) (by decide) (by decide) (by decide)
    (by decide) (by decide) (by decide) (by decide)

end NestEnc